import Mathlib

/-!
Shallow embedding of the hovercraft repository for specification checking.

Sources embedded:
* `src/bin/astar.rs`   — dungeon map generator (grid of terrain cells, room
  placement by rejection sampling, stubbed A* corridor pather).  Machine
  integers there are `u32`/`usize` used only in small in-bounds ranges, so we
  embed them as `Nat`.  The unseeded `rand::thread_rng` is embedded as an
  explicit stream of naturals (`RNG`); `gen_range(lo..hi)` of a uniform
  sampler is modelled as `lo + s % (hi - lo)` on the next stream element.
  Loops without a structural bound (`while` loops of `add_rooms` and
  `get_random_wall`) take explicit fuel and return `Option` (`none` models
  a non-terminating / panicking execution, which in Rust never returns).
* `src/physics.rs`, `src/lib.rs`, `src/laser.rs`, `src/main.rs`, and the
  orbit/think logic of `src/bin/hovercraft.rs` — floating point (`f32`/`f64`)
  arithmetic is idealised as real arithmetic; wall-clock timestamps
  (`chrono::DateTime<Utc>`) are embedded as integer nanosecond counts.
-/

namespace Hovercraft

/-! ### astar.rs: data model -/

/-- `enum Terrain` of astar.rs. -/
inductive Terrain where
  | Innards
  | Corridor
  | TallWall
  | WideWall
  | Full
  | Debug
deriving DecidableEq, Repr

/-- `Terrain::diggable` of astar.rs. -/
def Terrain.diggable (t : Terrain) : Bool :=
  if t = Terrain.Corridor ∨ t = Terrain.Full then true else false

/-- `struct Cell` of astar.rs (a map unit holding its terrain). -/
structure Cell where
  terrain : Terrain
deriving DecidableEq, Repr

/-- `struct Pair` of astar.rs (a y/x grid coordinate). -/
structure Pair where
  x : ℕ
  y : ℕ
deriving DecidableEq, Repr

/-- `struct Room` of astar.rs. -/
structure Room where
  x : ℕ
  y : ℕ
  width : ℕ
  height : ℕ
deriving DecidableEq, Repr

/-- `struct Mapp` of astar.rs: a 2d grid of cells plus the list of rooms. -/
structure Mapp where
  data : List (List Cell)
  rooms : List Room
deriving DecidableEq, Repr

/-- `Mapp::new(height, width)`: `height` rows of `width` cells, all
`Terrain::Full`. -/
def Mapp.new (height width : ℕ) : Mapp :=
  { data := List.replicate height (List.replicate width (Cell.mk Terrain.Full)),
    rooms := [] }

/-- `Mapp::default()` = `Mapp::new(20, 80)`. -/
def Mapp.default : Mapp := Mapp.new 20 80

/-- `Mapp::height()` (`data.len()`). -/
def Mapp.height (m : Mapp) : ℕ := m.data.length

/-- `Mapp.width()` (`data[0].len()`). -/
def Mapp.width (m : Mapp) : ℕ := (m.data.getD 0 []).length

/-- Read `self.data[y][x]`.  Rust would panic out of bounds; all theorems
about concrete executions stay in bounds, where `getD` agrees with the
panicking index. -/
def Mapp.getCell (m : Mapp) (y x : ℕ) : Cell :=
  (m.data.getD y []).getD x (Cell.mk Terrain.Debug)

/-- Write `self.data[y][x].terrain = t`.  `List.set` out of bounds is the
identity; the embedded executions only write in bounds. -/
def Mapp.setCell (m : Mapp) (y x : ℕ) (t : Terrain) : Mapp :=
  { m with data := m.data.set y ((m.data.getD y []).set x (Cell.mk t)) }

/-! ### astar.rs: randomness -/

/-- The unseeded `rand::thread_rng()` stream: an arbitrary infinite sequence
of naturals consumed one at a time. -/
def RNG : Type := ℕ → ℕ

/-- Pop the next raw value off the stream. -/
def RNG.next (r : RNG) : ℕ × RNG := (r 0, fun n => r (n + 1))

/-- `rng.gen_range(lo..hi)` (half-open): a uniform draw embedded as
`lo + s % (hi - lo)` on the next stream element. -/
def genRange (lo hi : ℕ) (r : RNG) : ℕ × RNG :=
  let (s, r') := r.next
  (lo + s % (hi - lo), r')

/-- `rng.gen_range(lo..=hi)` (inclusive). -/
def genRangeIncl (lo hi : ℕ) (r : RNG) : ℕ × RNG :=
  let (s, r') := r.next
  (lo + s % (hi - lo + 1), r')

/-! ### astar.rs: `Mapp::add_room` -/

/-- The four random draws performed at the top of `Mapp::add_room`:
`start_x ∈ 0..75`, `start_y ∈ 0..15`, `size_x ∈ 4..=min(10, 79-start_x)`,
`size_y ∈ 4..=min(10, 19-start_y)`. -/
def add_room_draws (rng : RNG) : (ℕ × ℕ × ℕ × ℕ) × RNG :=
  let (start_x, rng) := genRange 0 75 rng
  let (start_y, rng) := genRange 0 15 rng
  let max_width := min 10 (79 - start_x)
  let max_height := min 10 (19 - start_y)
  let (size_x, rng) := genRangeIncl 4 max_width rng
  let (size_y, rng) := genRangeIncl 4 max_height rng
  ((start_x, start_y, size_x, size_y), rng)

/-- Projection: the drawn `start_x`. -/
def drawStartX (rng : RNG) : ℕ := (add_room_draws rng).1.1

/-- Projection: the drawn `start_y`. -/
def drawStartY (rng : RNG) : ℕ := (add_room_draws rng).1.2.1

/-- Projection: the drawn `size_x`. -/
def drawSizeX (rng : RNG) : ℕ := (add_room_draws rng).1.2.2.1

/-- Projection: the drawn `size_y`. -/
def drawSizeY (rng : RNG) : ℕ := (add_room_draws rng).1.2.2.2

/-- Projection: the stream after the four draws. -/
def drawRng (rng : RNG) : RNG := (add_room_draws rng).2

/-- First write loop of `add_room`: `for i in start_x..end_x` make
`[start_y][i]` and `[end_y-1][i]` wide walls. -/
def digTopBottom (start_x end_x start_y end_y : ℕ) (m : Mapp) : Mapp :=
  (List.range' start_x (end_x - start_x)).foldl
    (fun acc i =>
      (acc.setCell start_y i Terrain.WideWall).setCell (end_y - 1) i
        Terrain.WideWall)
    m

/-- One iteration of the second write loop of `add_room`: row `i` starts and
ends with tall walls and is `Innards` in between. -/
def digRow (start_x end_x i : ℕ) (m : Mapp) : Mapp :=
  let m1 := m.setCell i start_x Terrain.TallWall
  let m2 := (List.range' (start_x + 1) (end_x - 1 - (start_x + 1))).foldl
    (fun acc j => acc.setCell i j Terrain.Innards) m1
  m2.setCell i (end_x - 1) Terrain.TallWall

/-- Second write loop of `add_room`: `for i in start_y+1..end_y-1`. -/
def digInner (start_x end_x start_y end_y : ℕ) (m : Mapp) : Mapp :=
  (List.range' (start_y + 1) (end_y - 1 - (start_y + 1))).foldl
    (fun acc i => digRow start_x end_x i acc) m

/-- Body of `Mapp::add_room` after the random draws, with the drawn numbers
as parameters: reject (returning `false`, map untouched) unless the four
corner cells of the candidate rectangle are `Terrain::Full`; otherwise push
the room and dig its walls and innards, returning `true`. -/
def addRoomAt (m : Mapp) (start_x start_y size_x size_y : ℕ) (rng : RNG) :
    Bool × Mapp × RNG :=
  let end_x := start_x + size_x
  let end_y := start_y + size_y
  if (m.getCell start_y start_x).terrain ≠ Terrain.Full
      ∨ (m.getCell end_y end_x).terrain ≠ Terrain.Full
      ∨ (m.getCell start_y end_x).terrain ≠ Terrain.Full
      ∨ (m.getCell end_y start_x).terrain ≠ Terrain.Full then
    (false, m, rng)
  else
    let m1 : Mapp :=
      { m with rooms := m.rooms ++ [Room.mk start_x start_y size_x size_y] }
    let m2 := digTopBottom start_x end_x start_y end_y m1
    let m3 := digInner start_x end_x start_y end_y m2
    (true, m3, rng)

/-- `Mapp::add_room`. -/
def Mapp.add_room (m : Mapp) (rng : RNG) : Bool × Mapp × RNG :=
  addRoomAt m (drawStartX rng) (drawStartY rng) (drawSizeX rng)
    (drawSizeY rng) (drawRng rng)

/-- `MAX_ADDROOM_FAILS` of astar.rs. -/
def MAX_ADDROOM_FAILS : ℕ := 3

/-- The `while addroom_fails < MAX_ADDROOM_FAILS` loop of `Mapp::add_rooms`,
with fuel, also recording the result of every `add_room` call (the trace of
booleans, in call order).  `none` models running out of fuel. -/
def Mapp.add_rooms_aux : ℕ → Mapp → RNG → ℕ → Option (Mapp × List Bool)
  | 0, _, _, _ => none
  | fuel + 1, m, rng, addroom_fails =>
    if addroom_fails < MAX_ADDROOM_FAILS then
      match m.add_room rng with
      | (ret, m', rng') =>
        match Mapp.add_rooms_aux fuel m' rng'
            (if ret then addroom_fails else addroom_fails + 1) with
        | none => none
        | some (mf, trace) => some (mf, ret :: trace)
    else some (m, [])

/-- `Mapp::add_rooms` (with fuel; the trace is discarded). -/
def Mapp.add_rooms (fuel : ℕ) (m : Mapp) (rng : RNG) : Option Mapp :=
  (Mapp.add_rooms_aux fuel m rng 0).map Prod.fst

/-! ### astar.rs: `Mapp::get_random_wall`, `Mapp::path`, `Mapp::add_paths` -/

/-- The candidate wall cells collected at the top of
`Mapp::get_random_wall`: the top/bottom rows (excluding corners) then the
left/right columns (excluding corners) of the room's rectangle. -/
def candidatesOf (src : Room) : List Pair :=
  ((List.range' 1 (src.width - 1 - 1)).flatMap fun i =>
    [Pair.mk (src.x + i) src.y,
     Pair.mk (src.x + i) (src.y + src.height - 1)])
  ++ ((List.range' 1 (src.height - 1 - 1)).flatMap fun i =>
    [Pair.mk src.x (src.y + i),
     Pair.mk (src.x + src.width - 1) (src.y + i)])

/-- The `while !wall_validated` loop of `Mapp::get_random_wall`, with fuel.
Each iteration draws a random candidate, determines which face of the room
it is on and the cell just outside it (`continue` skips the terrain check,
modelled by the `none` branch value), and accepts once that outside cell is
diggable.  The loop variable `coord2` survives iterations: in the
"uh oh" fall-through branch the terrain check reads its *stale* value,
exactly as in the source. -/
def grwLoop (data : List (List Cell)) (src : Room) (cands : List Pair)
    (coord2 : Pair) (rng : RNG) : ℕ → Option ((Pair × Pair) × RNG)
  | 0 => none
  | fuel + 1 =>
    let (s, rng') := rng.next
    let rand_pair := s % cands.length
    let p := cands.getD rand_pair (Pair.mk 0 0)
    let branch : Option Pair :=
      if p.y = src.y then
        if p.y = 0 then none else some (Pair.mk p.x (p.y - 1))
      else if p.y = src.y + src.height - 1 then
        if src.y + src.height ≥ data.length then none
        else some (Pair.mk p.x (p.y + 1))
      else if p.x = src.x then
        if p.x = 0 then none else some (Pair.mk (p.x - 1) p.y)
      else if p.x = src.x + src.width - 1 then
        if src.x + src.width ≥ (data.getD 0 []).length then none
        else some (Pair.mk (p.x + 1) p.y)
      else
        some coord2
    match branch with
    | none => grwLoop data src cands coord2 rng' fuel
    | some c2 =>
      let terr := ((data.getD c2.y []).getD c2.x (Cell.mk Terrain.Debug)).terrain
      if terr.diggable then some ((Pair.mk p.x p.y, c2), rng')
      else grwLoop data src cands c2 rng' fuel

/-- `Mapp::get_random_wall(src_index)`.  It takes `&mut self` but performs
no write through the borrow, so the map in the result is the input map.
`none` models the panics (`rooms[src_index]` out of range, `gen_range` on an
empty candidate list) and a non-terminating validation loop. -/
def Mapp.get_random_wall (m : Mapp) (src_index : ℕ) (rng : RNG) (fuel : ℕ) :
    Option (Mapp × (Pair × Pair) × RNG) :=
  match m.rooms[src_index]? with
  | none => none
  | some src =>
    let cands := candidatesOf src
    if cands.length = 0 then none
    else
      match grwLoop m.data src cands (Pair.mk 0 0) rng fuel with
      | none => none
      | some (pp, rng') => some (m, pp, rng')

/-- `Mapp::path(src, dst)`: the A* corridor digger.  Its body only calls
`get_random_wall` on src and dst; everything else is comments, so no cell
and no room is written. -/
def Mapp.path (m : Mapp) (src dst : ℕ) (rng : RNG) (fuel : ℕ) :
    Option (Mapp × RNG) :=
  match m.get_random_wall src rng fuel with
  | none => none
  | some (m1, _start_and_first, rng') =>
    match m1.get_random_wall dst rng' fuel with
    | none => none
    | some (m2, _end_and_snd, rng'') => some (m2, rng'')

/-- The `while distant_rooms.len() > 0` loop of `Mapp::add_paths`.
`distant_rev` is the `distant_rooms` vector reversed, so that `Vec::pop`
(remove the last element) becomes taking the head. -/
def addPathsLoop (m : Mapp) (connected : List ℕ) (distant_rev : List ℕ)
    (rng : RNG) (fuel : ℕ) : Option (Mapp × RNG) :=
  match distant_rev with
  | [] => some (m, rng)
  | dst :: rest =>
    let src := connected.getD 0 0
    match m.path src dst rng fuel with
    | none => none
    | some (m', rng') => addPathsLoop m' (connected ++ [dst]) rest rng' fuel

/-- `Mapp::add_paths` (early-returns when there are more than two rooms;
otherwise connects room 0 to each remaining room via `path`). -/
def Mapp.add_paths (m : Mapp) (rng : RNG) (fuel : ℕ) : Option (Mapp × RNG) :=
  if m.rooms.length > 2 then some (m, rng)
  else
    addPathsLoop m [0] (List.range' 1 (m.rooms.length - 1)).reverse rng fuel

/-- The rectangularity invariant of the grid: `h` rows, each of length `w`. -/
def Mapp.rect (m : Mapp) (h w : ℕ) : Prop :=
  m.data.length = h ∧ ∀ row ∈ m.data, row.length = w

instance (m : Mapp) (h w : ℕ) : Decidable (m.rect h w) := by
  unfold Mapp.rect; infer_instance

/-- The four-corner emptiness test of `Mapp::add_room`: the corners of the
candidate rectangle `[start_y..end_y] × [start_x..end_x]` are all
`Terrain::Full`. -/
def Mapp.cornersFull (m : Mapp) (start_x start_y end_x end_y : ℕ) : Prop :=
  (m.getCell start_y start_x).terrain = Terrain.Full ∧
  (m.getCell end_y end_x).terrain = Terrain.Full ∧
  (m.getCell start_y end_x).terrain = Terrain.Full ∧
  (m.getCell end_y start_x).terrain = Terrain.Full

instance (m : Mapp) (a b c d : ℕ) : Decidable (m.cornersFull a b c d) := by
  unfold Mapp.cornersFull; infer_instance

/-- A 20×80 default map with one room placed (the room drawn from the
all-zeros stream: origin (0,0), size 4×4). -/
def mapWithRoom : Mapp := (Mapp.default.add_room (fun _ => 0)).2.1

/-- A stream that makes the second and the last two `add_room` draws collide
with already-placed rooms while the third succeeds elsewhere: the trace
interleaves a success between failures. -/
def rngInterleaved : RNG := fun n => if 8 ≤ n ∧ n < 12 then 40 else 0



/-! ### hovercraft.rs: the think timer -/

/-- The timer state of `struct World` of hovercraft.rs, projected onto its
`last_think: Option<DateTime<Utc>>` field.  Timestamps are embedded as
integer nanosecond counts (chrono datetimes have nanosecond precision).
The other fields `World::think` updates (ship, enemy, bullets) never touch
`last_think`. -/
structure WorldClock where
  last_think : Option ℤ
deriving DecidableEq

/-- `Duration::milliseconds(100)` in nanoseconds. -/
def thinkThresholdNs : ℤ := 100 * 1000000

/-- `World::needs_think`: on `None` it stores the current time and reports
`true`; otherwise it reports whether strictly more than 100 ms have
elapsed, leaving the state alone. -/
def WorldClock.needs_think (w : WorldClock) (now : ℤ) : Bool × WorldClock :=
  match w.last_think with
  | none => (true, { w with last_think := some now })
  | some think_innards => (decide (now - think_innards > thinkThresholdNs), w)

/-- The effect of `World::think` on the timer state: its last statement is
`self.last_think = Some(Utc::now())`. -/
def WorldClock.think (w : WorldClock) (now : ℤ) : WorldClock :=
  { w with last_think := some now }

/-! ### physics.rs / lib.rs / laser.rs / main.rs / hovercraft.rs:
real-number embedding of the float code -/

noncomputable section RealPart

/-- glam `Vec2`, idealised over ℝ. -/
structure Vec2 where
  x : ℝ
  y : ℝ

def Vec2.add (a b : Vec2) : Vec2 := Vec2.mk (a.x + b.x) (a.y + b.y)

def Vec2.sub (a b : Vec2) : Vec2 := Vec2.mk (a.x - b.x) (a.y - b.y)

def Vec2.scale (a : Vec2) (c : ℝ) : Vec2 := Vec2.mk (a.x * c) (a.y * c)

/-- `Vec2::length`. -/
def Vec2.length (v : Vec2) : ℝ := Real.sqrt (v.x ^ 2 + v.y ^ 2)

/-- `f32::atan2` / `f64::atan2`: the principal angle in (-π, π], i.e. the
complex argument of `x + i y`. -/
def atan2 (y x : ℝ) : ℝ := Complex.arg (Complex.mk x y)

/-- Rust float truncation toward zero. -/
def fTrunc (x : ℝ) : ℝ := if 0 ≤ x then ((⌊x⌋ : ℤ) : ℝ) else ((⌈x⌉ : ℤ) : ℝ)

/-- Rust `%` on floats: `x - y * (x / y).trunc()`. -/
def fRem (x y : ℝ) : ℝ := x - y * fTrunc (x / y)

/-- `struct Polar` of physics.rs / lib.rs (also the `radius`/`angle` polar
of hovercraft.rs). -/
structure Polar where
  r : ℝ
  theta : ℝ

/-- `struct CoordPair` of physics.rs / lib.rs. -/
structure CoordPair where
  center : Vec2
  exterior : Vec2

/-- `impl From<CoordPair> for Polar`. -/
def Polar.fromCoordPair (coords : CoordPair) : Polar :=
  let delta_vector := coords.exterior.sub coords.center
  Polar.mk delta_vector.length (atan2 delta_vector.y delta_vector.x)

/-- `impl From<Polar> for Vec2` (also `Polar::as_cartesian` of
hovercraft.rs). -/
def Vec2.fromPolar (polar : Polar) : Vec2 :=
  Vec2.mk (polar.r * Real.cos polar.theta) (polar.r * Real.sin polar.theta)

/-- `polar_to_cartesean_plus_point` of physics.rs / lib.rs. -/
def polar_to_cartesean_plus_point (polar : Polar) (center : Vec2) : Vec2 :=
  (Vec2.fromPolar polar).add center

/-- `NODES_PER_ORBIT` of physics.rs / lib.rs. -/
def NODES_PER_ORBIT : ℝ := 40

/-- `RADIANS_AHEAD` of physics.rs / lib.rs. -/
def RADIANS_AHEAD : ℝ := 2 * Real.pi / NODES_PER_ORBIT

/-- `orbit` of physics.rs (textually identical in lib.rs). -/
def orbit (cur_location target_location : Vec2) (orbit_distance : ℝ) :
    Vec2 :=
  let polar := Polar.fromCoordPair (CoordPair.mk target_location cur_location)
  let dest_polar := Polar.mk orbit_distance
    (fRem (polar.theta + RADIANS_AHEAD) (2 * Real.pi))
  polar_to_cartesean_plus_point dest_polar target_location

/-- Euclidean distance between two points of the plane. -/
def dist2 (a b : Vec2) : ℝ := Real.sqrt ((a.x - b.x) ^ 2 + (a.y - b.y) ^ 2)

/-- `simplify` of hovercraft.rs: `angle % (2.0 * PI)`. -/
def simplify (angle : ℝ) : ℝ := fRem angle (2 * Real.pi)

/-- `Blittable::find_angle` of hovercraft.rs. -/
def find_angle (start dest : Vec2) : ℝ :=
  atan2 (dest.y - start.y) (dest.x - start.x)

/-- The destination point computed by `Ship::orbit` of hovercraft.rs and
stored into `self.destination`. -/
def ship_orbit_dest (location : Vec2) (distance : ℝ) (clockwise : Bool)
    (target : Vec2) : Vec2 :=
  let rads_away := 0.05 * Real.pi
  let angle_facing_asteroid := find_angle location target
  let angle_facing_ship := simplify (angle_facing_asteroid + Real.pi)
  let modi := if clockwise then rads_away else -1 * rads_away
  let perp_angle := simplify (angle_facing_ship + modi)
  let dest_from_asteroid := Vec2.fromPolar (Polar.mk distance perp_angle)
  Vec2.mk (target.x + dest_from_asteroid.x) (target.y + dest_from_asteroid.y)

/-- `LASER_WIDTH` of laser.rs. -/
def LASER_WIDTH : ℝ := 4

/-- `LASER_HEIGHT` of laser.rs. -/
def LASER_HEIGHT : ℝ := 0.5

/-- `get_laser_vertices` of laser.rs: computes the eight corner coordinates
and the 24 face vertices of the laser cuboid, then ends in `None`; nothing
it computes reaches the caller. -/
def get_laser_vertices (laser_origin laser_dest : Vec2) :
    Option (List (ℝ × ℝ × ℝ) × List (ℝ × ℝ × ℝ) × List (ℝ × ℝ × ℝ)) :=
  let coordpair := CoordPair.mk laser_origin laser_dest
  let polar := Polar.fromCoordPair coordpair
  let maltheta := polar.theta + fRem (0.5 * Real.pi) (2 * Real.pi)
  let maltheta2 := polar.theta - 0.5 * Real.pi +
    fRem (2 * Real.pi) (2 * Real.pi)
  let laser_vertex_1_polar := Polar.mk (LASER_WIDTH / 2) maltheta
  let laser_vertex_2_polar := Polar.mk (LASER_WIDTH / 2) maltheta2
  let laser_vertex_1_xy :=
    polar_to_cartesean_plus_point laser_vertex_1_polar laser_origin
  let laser_vertex_2_xy :=
    polar_to_cartesean_plus_point laser_vertex_2_polar laser_origin
  let laser_vertex_3_xy :=
    polar_to_cartesean_plus_point laser_vertex_1_polar laser_dest
  let laser_vertex_4_xy :=
    polar_to_cartesean_plus_point laser_vertex_2_polar laser_dest
  let coords : List (ℝ × ℝ × ℝ) := [
    (laser_vertex_1_xy.x, laser_vertex_1_xy.y, -1 * LASER_HEIGHT),
    (laser_vertex_2_xy.x, laser_vertex_2_xy.y, -1 * LASER_HEIGHT),
    (laser_vertex_2_xy.x, laser_vertex_2_xy.y, LASER_HEIGHT),
    (laser_vertex_1_xy.x, laser_vertex_1_xy.y, LASER_HEIGHT),
    (laser_vertex_3_xy.x, laser_vertex_3_xy.y, -1 * LASER_HEIGHT),
    (laser_vertex_4_xy.x, laser_vertex_4_xy.y, -1 * LASER_HEIGHT),
    (laser_vertex_4_xy.x, laser_vertex_4_xy.y, LASER_HEIGHT),
    (laser_vertex_3_xy.x, laser_vertex_3_xy.y, LASER_HEIGHT)]
  let vertices : List (ℝ × ℝ × ℝ) := [
    (laser_vertex_1_xy.x, laser_vertex_1_xy.y, LASER_HEIGHT),
    (laser_vertex_1_xy.x, laser_vertex_1_xy.y, -1 * LASER_HEIGHT),
    (laser_vertex_2_xy.x, laser_vertex_2_xy.y, -1 * LASER_HEIGHT),
    (laser_vertex_2_xy.x, laser_vertex_2_xy.y, LASER_HEIGHT),
    (laser_vertex_1_xy.x, laser_vertex_1_xy.y, LASER_HEIGHT),
    (laser_vertex_4_xy.x, laser_vertex_4_xy.y, LASER_HEIGHT),
    (laser_vertex_3_xy.x, laser_vertex_3_xy.y, LASER_HEIGHT),
    (laser_vertex_2_xy.x, laser_vertex_2_xy.y, LASER_HEIGHT),
    (laser_vertex_4_xy.x, laser_vertex_4_xy.y, LASER_HEIGHT),
    (laser_vertex_4_xy.x, laser_vertex_4_xy.y, -1 * LASER_HEIGHT),
    (laser_vertex_3_xy.x, laser_vertex_3_xy.y, -1 * LASER_HEIGHT),
    (laser_vertex_3_xy.x, laser_vertex_3_xy.y, LASER_HEIGHT),
    (laser_vertex_1_xy.x, laser_vertex_1_xy.y, -1 * LASER_HEIGHT),
    (laser_vertex_3_xy.x, laser_vertex_3_xy.y, -1 * LASER_HEIGHT),
    (laser_vertex_4_xy.x, laser_vertex_4_xy.y, -1 * LASER_HEIGHT),
    (laser_vertex_2_xy.x, laser_vertex_2_xy.y, -1 * LASER_HEIGHT),
    (laser_vertex_1_xy.x, laser_vertex_1_xy.y, LASER_HEIGHT),
    (laser_vertex_3_xy.x, laser_vertex_3_xy.y, LASER_HEIGHT),
    (laser_vertex_3_xy.x, laser_vertex_3_xy.y, -1 * LASER_HEIGHT),
    (laser_vertex_1_xy.x, laser_vertex_1_xy.y, -1 * LASER_HEIGHT),
    (laser_vertex_2_xy.x, laser_vertex_2_xy.y, LASER_HEIGHT),
    (laser_vertex_2_xy.x, laser_vertex_2_xy.y, -1 * LASER_HEIGHT),
    (laser_vertex_4_xy.x, laser_vertex_4_xy.y, -1 * LASER_HEIGHT),
    (laser_vertex_4_xy.x, laser_vertex_4_xy.y, LASER_HEIGHT)]
  none

/-- glam `Vec3`, idealised over ℝ. -/
structure Vec3 where
  x : ℝ
  y : ℝ
  z : ℝ

def Vec3.add (a b : Vec3) : Vec3 :=
  Vec3.mk (a.x + b.x) (a.y + b.y) (a.z + b.z)

def Vec3.scale (a : Vec3) (c : ℝ) : Vec3 :=
  Vec3.mk (a.x * c) (a.y * c) (a.z * c)

/-- `Vec3::length`. -/
def Vec3.length (v : Vec3) : ℝ := Real.sqrt (v.x ^ 2 + v.y ^ 2 + v.z ^ 2)

/-- `Vec3::normalize` (division by the length). -/
def Vec3.normalize (v : Vec3) : Vec3 := v.scale v.length⁻¹

/-- `Vec3::splat`. -/
def splat (c : ℝ) : Vec3 := Vec3.mk c c c

/-- Componentwise `Vec3::clamp`. -/
def Vec3.clampv (v lo hi : Vec3) : Vec3 :=
  Vec3.mk (min (max v.x lo.x) hi.x) (min (max v.y lo.y) hi.y)
    (min (max v.z lo.z) hi.z)

/-- Componentwise `Vec3::abs`. -/
def Vec3.absv (v : Vec3) : Vec3 := Vec3.mk |v.x| |v.y| |v.z|

/-- `MAP_SIZE` of physics.rs. -/
def physics_MAP_SIZE : ℕ := 1000

/-- `update_vel_if_edge` of physics.rs: zero the x (resp. y) velocity
component when the x (resp. y) coordinate sits on the map edge.  The z
component is never touched. -/
def update_vel_if_edge (cur_location cur_vel : Vec3) : Vec3 :=
  let abs_location := cur_location.absv
  let limit := splat ((physics_MAP_SIZE : ℝ) / 2)
  let ret := cur_vel
  let ret1 := if abs_location.x = limit.x then { ret with x := 0 } else ret
  let ret2 := if abs_location.y = limit.y then { ret1 with y := 0 } else ret1
  ret2

/-- The speed cap at the top of `apply_velocity`: `actual_vel` is `vel`
normalised to the max velocity when too fast. -/
def apply_velocity_actual (vel : Vec3) (max_vel : ℝ) : Vec3 :=
  if vel.length > max_vel then (Vec3.normalize vel).scale max_vel else vel

/-- The translation computed by one entity's `apply_velocity` step of
physics.rs: advance by `actual_vel * dt`, then clamp into
`[-MAP_SIZE/2, MAP_SIZE/2]³`. -/
def apply_velocity_t1 (translation vel : Vec3) (max_vel dt : ℝ) : Vec3 :=
  (translation.add ((apply_velocity_actual vel max_vel).scale dt)).clampv
    (splat (-((physics_MAP_SIZE : ℝ) / 2))) (splat ((physics_MAP_SIZE : ℝ) / 2))

/-- One entity's `apply_velocity` step of physics.rs: the new translation
and the velocity after `update_vel_if_edge`. -/
def apply_velocity_step (translation vel : Vec3) (max_vel dt : ℝ) :
    Vec3 × Vec3 :=
  (apply_velocity_t1 translation vel max_vel dt,
   update_vel_if_edge (apply_velocity_t1 translation vel max_vel dt) vel)

/-- `MAP_SIZE` of lib.rs. -/
def lib_MAP_SIZE : ℕ := 400

/-- `MAX_VELOCITY` of lib.rs. -/
def MAX_VELOCITY : ℝ := 40

/-- `is_at_map_edge` of lib.rs. -/
def is_at_map_edge (cur_location : Vec3) : Bool :=
  let abs_location := cur_location.absv
  let limit := splat ((lib_MAP_SIZE : ℝ) / 2)
  if abs_location.x = limit.x ∨ abs_location.y = limit.y then true else false

/-- The translation computed by one entity's `apply_velocity` step of
lib.rs. -/
def lib_apply_velocity_t1 (translation vel : Vec3) (dt : ℝ) : Vec3 :=
  (translation.add ((apply_velocity_actual vel MAX_VELOCITY).scale dt)).clampv
    (splat (-((lib_MAP_SIZE : ℝ) / 2))) (splat ((lib_MAP_SIZE : ℝ) / 2))

/-- One entity's `apply_velocity` step of lib.rs: the whole velocity vector
is zeroed at the map edge. -/
def lib_apply_velocity_step (translation vel : Vec3) (dt : ℝ) :
    Vec3 × Vec3 :=
  (lib_apply_velocity_t1 translation vel dt,
   if is_at_map_edge (lib_apply_velocity_t1 translation vel dt) then splat 0
   else vel)

/-- glam `Quat` (a rotation), idealised as four reals. -/
structure Quat where
  qx : ℝ
  qy : ℝ
  qz : ℝ
  qw : ℝ

/-- bevy `Transform`: translation, rotation (field `rot`), scale. -/
structure Transformm where
  translation : Vec3
  rot : Quat
  scale : Vec3

/-- The W/S/D/A key states read by `move_player` of main.rs. -/
structure Keys where
  kw : Bool
  ks : Bool
  kd : Bool
  ka : Bool

/-- The `direction` accumulation of `move_player` of main.rs. -/
def move_player_direction (keys : Keys) : Vec2 :=
  let d0 := Vec2.mk 0 0
  let d1 := if keys.kw then { d0 with y := d0.y + 1 } else d0
  let d2 := if keys.ks then { d1 with y := d1.y - 1 } else d1
  let d3 := if keys.kd then { d2 with x := d2.x + 1 } else d2
  let d4 := if keys.ka then { d3 with x := d3.x - 1 } else d3
  d4

/-- `move_player` of main.rs: every entity matched by
`Query<&mut Transform, With<Player>>` gains `direction * move_speed * dt`
(extended by z = 0) on its translation.  Entities without the `Player`
component are not in the query (`others`). -/
def move_player (players others : List Transformm) (keys : Keys) (dt : ℝ) :
    List Transformm × List Transformm :=
  let direction := move_player_direction keys
  let move_speed : ℝ := 7
  let move_delta := (direction.scale move_speed).scale dt
  (players.map (fun transform =>
      { transform with translation :=
          transform.translation.add (Vec3.mk move_delta.x move_delta.y 0) }),
   others)

end RealPart


/-! ### Helper lemmas about the astar.rs embedding -/

/-- A property of maps preserved by every step of a fold is preserved by the
fold. -/
theorem foldl_preserves {α : Type} (P : Mapp → Prop) (f : Mapp → α → Mapp)
    (hf : ∀ mm a, P mm → P (f mm a)) :
    ∀ (l : List α) (mm : Mapp), P mm → P (l.foldl f mm) := by
  intro l
  induction l with
  | nil => intro mm hm; simpa using hm
  | cons a l ih => intro mm hm; simpa using ih (f mm a) (hf mm a hm)

theorem digRow_rooms (a b i : ℕ) (m : Mapp) :
    (digRow a b i m).rooms = m.rooms := by
  show (List.foldl (fun acc j => acc.setCell i j Terrain.Innards)
      (m.setCell i a Terrain.TallWall)
      (List.range' (a + 1) (b - 1 - (a + 1)))).rooms = m.rooms
  exact foldl_preserves (fun x => x.rooms = m.rooms)
    (fun acc j => acc.setCell i j Terrain.Innards) (fun _ _ hh => hh) _ _ rfl

theorem digTopBottom_rooms (a b c d : ℕ) (m : Mapp) :
    (digTopBottom a b c d m).rooms = m.rooms := by
  unfold digTopBottom
  exact foldl_preserves (fun x => x.rooms = m.rooms)
    (fun acc i =>
      (acc.setCell c i Terrain.WideWall).setCell (d - 1) i Terrain.WideWall)
    (fun _ _ hh => hh) _ _ rfl

theorem digInner_rooms (a b c d : ℕ) (m : Mapp) :
    (digInner a b c d m).rooms = m.rooms := by
  unfold digInner
  exact foldl_preserves (fun x => x.rooms = m.rooms) _
    (fun mm i hh => (digRow_rooms a b i mm).trans hh) _ _ rfl

theorem setCell_rect {m : Mapp} {h w : ℕ} (y x : ℕ) (t : Terrain)
    (hm : m.rect h w) : (m.setCell y x t).rect h w := by
  obtain ⟨hlen, hrow⟩ := hm
  by_cases hy : y < m.data.length
  · refine ⟨by simpa [Mapp.setCell] using hlen, ?_⟩
    intro row hr
    simp only [Mapp.setCell] at hr
    rcases List.mem_or_eq_of_mem_set hr with h1 | h1
    · exact hrow row h1
    · subst h1
      rw [List.length_set, List.getD_eq_getElem _ _ hy]
      exact hrow _ (List.getElem_mem hy)
  · push_neg at hy
    refine ⟨by simpa [Mapp.setCell] using hlen, ?_⟩
    intro row hr
    simp only [Mapp.setCell] at hr
    rw [List.set_eq_of_length_le hy] at hr
    exact hrow row hr

theorem digTopBottom_rect {m : Mapp} {h w : ℕ} (a b c d : ℕ)
    (hm : m.rect h w) : (digTopBottom a b c d m).rect h w := by
  unfold digTopBottom
  exact foldl_preserves (fun x => x.rect h w) _
    (fun _ _ hmm => setCell_rect _ _ _ (setCell_rect _ _ _ hmm)) _ _ hm

theorem digRow_rect {m : Mapp} {h w : ℕ} (a b i : ℕ)
    (hm : m.rect h w) : (digRow a b i m).rect h w := by
  show ((List.foldl (fun acc j => acc.setCell i j Terrain.Innards)
      (m.setCell i a Terrain.TallWall)
      (List.range' (a + 1) (b - 1 - (a + 1)))).setCell i (b - 1)
        Terrain.TallWall).rect h w
  exact setCell_rect _ _ _
    (foldl_preserves (fun x => x.rect h w) _
      (fun _ _ hmm => setCell_rect _ _ _ hmm) _ _ (setCell_rect _ _ _ hm))

theorem digInner_rect {m : Mapp} {h w : ℕ} (a b c d : ℕ)
    (hm : m.rect h w) : (digInner a b c d m).rect h w := by
  unfold digInner
  exact foldl_preserves (fun x => x.rect h w) _
    (fun _ _ hmm => digRow_rect _ _ _ hmm) _ _ hm

/-- A rooms-update leaves the grid alone, so it preserves rectangularity. -/
theorem rooms_update_rect {m : Mapp} {h w : ℕ} (rs : List Room)
    (hm : m.rect h w) : (Mapp.mk m.data rs).rect h w := hm

theorem addRoomAt_rect {m : Mapp} {h w : ℕ} (sx sy zx zy : ℕ) (rng : RNG)
    (hm : m.rect h w) : ((addRoomAt m sx sy zx zy rng).2.1).rect h w := by
  unfold addRoomAt
  dsimp only
  split
  · exact hm
  · exact digInner_rect _ _ _ _ (digTopBottom_rect _ _ _ _ hm)

theorem add_room_rect {m : Mapp} {h w : ℕ} (rng : RNG)
    (hm : m.rect h w) : ((m.add_room rng).2.1).rect h w :=
  addRoomAt_rect _ _ _ _ _ hm

theorem add_rooms_aux_rect {h w : ℕ} :
    ∀ (fuel : ℕ) (m : Mapp) (rng : RNG) (fails : ℕ)
      (out : Mapp × List Bool),
      m.rect h w → Mapp.add_rooms_aux fuel m rng fails = some out →
      out.1.rect h w := by
  intro fuel
  induction fuel with
  | zero => intro m rng fails out _ hout; exact absurd hout (by simp [Mapp.add_rooms_aux])
  | succ fuel ih =>
    intro m rng fails out hm hout
    rw [Mapp.add_rooms_aux] at hout
    split at hout
    · rcases har : m.add_room rng with ⟨ret, m', rng'⟩
      rw [har] at hout
      dsimp only at hout
      rcases hrec : Mapp.add_rooms_aux fuel m' rng'
          (if ret then fails else fails + 1) with _ | ⟨mf, trace⟩
      · rw [hrec] at hout; exact absurd hout (by simp)
      · rw [hrec] at hout
        simp only [Option.some.injEq] at hout
        have hrect' : m'.rect h w := by
          have hh := add_room_rect (m := m) rng hm
          rw [har] at hh
          exact hh
        have := ih m' rng' _ _ hrect' hrec
        rw [← hout]
        exact this
    · simp only [Option.some.injEq] at hout
      rw [← hout]
      exact hm

/-- `get_random_wall` hands back the untouched map: no write ever happens
through its `&mut` borrow. -/
theorem get_random_wall_fst (m : Mapp) (i : ℕ) (rng : RNG) (fuel : ℕ)
    (out : Mapp × (Pair × Pair) × RNG)
    (h : m.get_random_wall i rng fuel = some out) : out.1 = m := by
  unfold Mapp.get_random_wall at h
  split at h
  · exact absurd h (by simp)
  · dsimp only at h
    split at h
    · exact absurd h (by simp)
    · split at h
      · exact absurd h (by simp)
      · simp only [Option.some.injEq] at h
        rw [← h]

/-- `path` hands back the untouched map. -/
theorem path_fst (m : Mapp) (src dst : ℕ) (rng : RNG) (fuel : ℕ)
    (out : Mapp × RNG) (h : m.path src dst rng fuel = some out) :
    out.1 = m := by
  unfold Mapp.path at h
  split at h
  · exact absurd h (by simp)
  · next m1 pp rng' heq1 =>
    split at h
    · exact absurd h (by simp)
    · next m2 pp2 rng'' heq2 =>
      simp only [Option.some.injEq] at h
      have h1 : m1 = m := get_random_wall_fst _ _ _ _ _ heq1
      have h2 : m2 = m1 := get_random_wall_fst _ _ _ _ _ heq2
      rw [← h, h2, h1]

theorem addPathsLoop_fst :
    ∀ (distant_rev : List ℕ) (m : Mapp) (connected : List ℕ) (rng : RNG)
      (fuel : ℕ) (out : Mapp × RNG),
      addPathsLoop m connected distant_rev rng fuel = some out →
      out.1 = m := by
  intro distant_rev
  induction distant_rev with
  | nil =>
    intro m connected rng fuel out h
    simp only [addPathsLoop, Option.some.injEq] at h
    rw [← h]
  | cons dst rest ih =>
    intro m connected rng fuel out h
    rw [addPathsLoop] at h
    split at h
    · exact absurd h (by simp)
    · next m' rng' heq =>
      have h1 : m' = m := path_fst _ _ _ _ _ _ heq
      have h2 := ih m' (connected ++ [dst]) rng' fuel out h
      rw [h2, h1]

theorem add_paths_fst (m : Mapp) (rng : RNG) (fuel : ℕ) (out : Mapp × RNG)
    (h : m.add_paths rng fuel = some out) : out.1 = m := by
  unfold Mapp.add_paths at h
  split at h
  · simp only [Option.some.injEq] at h; rw [← h]
  · exact addPathsLoop_fst _ _ _ _ _ _ h

/-! ### Claim C1 -/

/-- Claim C1: the A* corridor pather is unimplemented — whenever
`Mapp::path(src, dst)` returns, it has dug no corridor: every terrain cell
of the grid and the rooms list are exactly as they were before the call. -/
theorem path_digs_nothing (m : Mapp) (src dst : ℕ) (rng : RNG) (fuel : ℕ)
    (out : Mapp × RNG) (h : m.path src dst rng fuel = some out) :
    out.1.data = m.data ∧ out.1.rooms = m.rooms := by
  rw [path_fst m src dst rng fuel out h]
  exact ⟨rfl, rfl⟩

/-- Witness for C1: a concrete terminating `path` call on `mapWithRoom`
returns with grid and room list untouched. -/
theorem path_digs_nothing_witness :
    ∃ out, mapWithRoom.path 0 0 (fun _ => 1) 5 = some out ∧
      out.1.data = mapWithRoom.data ∧ out.1.rooms = mapWithRoom.rooms :=
  ⟨_, rfl, path_digs_nothing mapWithRoom 0 0 (fun _ => 1) 5 _ rfl⟩

/-! ### Claim C7 -/

/-- Claim C7: the terrain grid stays rectangular.  `Mapp::new(height, width)`
builds `height` rows of length `width`, and every operation (`add_room`,
`add_rooms`, `get_random_wall`, `path`, `add_paths`) preserves the row count
and the length of every row, so `height()` and `width()` are invariant and
well-defined. -/
theorem grid_stays_rectangular :
    (∀ h w : ℕ, (Mapp.new h w).rect h w) ∧
    (∀ (m : Mapp) (rng : RNG) (h w : ℕ), m.rect h w →
      ((m.add_room rng).2.1).rect h w) ∧
    (∀ (fuel : ℕ) (m : Mapp) (rng : RNG) (out : Mapp × List Bool) (h w : ℕ),
      m.rect h w → Mapp.add_rooms_aux fuel m rng 0 = some out →
      out.1.rect h w) ∧
    (∀ (m : Mapp) (i : ℕ) (rng : RNG) (fuel : ℕ)
      (out : Mapp × (Pair × Pair) × RNG) (h w : ℕ),
      m.rect h w → m.get_random_wall i rng fuel = some out →
      out.1.rect h w) ∧
    (∀ (m : Mapp) (src dst : ℕ) (rng : RNG) (fuel : ℕ) (out : Mapp × RNG)
      (h w : ℕ), m.rect h w → m.path src dst rng fuel = some out →
      out.1.rect h w) ∧
    (∀ (m : Mapp) (rng : RNG) (fuel : ℕ) (out : Mapp × RNG) (h w : ℕ),
      m.rect h w → m.add_paths rng fuel = some out → out.1.rect h w) := by
  refine ⟨?_, ?_, ?_, ?_, ?_, ?_⟩
  · intro h w
    refine ⟨by simp [Mapp.new], ?_⟩
    intro row hr
    rw [List.eq_of_mem_replicate hr]
    simp
  · intro m rng h w hm
    exact add_room_rect rng hm
  · intro fuel m rng out h w hm hout
    exact add_rooms_aux_rect fuel m rng 0 out hm hout
  · intro m i rng fuel out h w hm hout
    rw [get_random_wall_fst _ _ _ _ _ hout]; exact hm
  · intro m src dst rng fuel out h w hm hout
    rw [path_fst _ _ _ _ _ _ hout]; exact hm
  · intro m rng fuel out h w hm hout
    rw [add_paths_fst _ _ _ _ hout]; exact hm

/-- Witness for C7: the 20×80 default map is rectangular, and stays so
after a concrete `add_room` call. -/
theorem grid_stays_rectangular_witness :
    ((Mapp.default.add_room (fun _ => 0)).2.1).rect 20 80 :=
  grid_stays_rectangular.2.1 Mapp.default (fun _ => 0) 20 80 (by decide)

/-! ### Claim C3 -/

/-- Unfolding equation for `addRoomAt`. -/
theorem addRoomAt_eq (m : Mapp) (sx sy zx zy : ℕ) (rng : RNG) :
    addRoomAt m sx sy zx zy rng =
      if (m.getCell sy sx).terrain ≠ Terrain.Full
          ∨ (m.getCell (sy + zy) (sx + zx)).terrain ≠ Terrain.Full
          ∨ (m.getCell sy (sx + zx)).terrain ≠ Terrain.Full
          ∨ (m.getCell (sy + zy) sx).terrain ≠ Terrain.Full then
        (false, m, rng)
      else
        (true,
          digInner sx (sx + zx) sy (sy + zy)
            (digTopBottom sx (sx + zx) sy (sy + zy)
              (Mapp.mk m.data (m.rooms ++ [Room.mk sx sy zx zy]))),
          rng) := rfl

theorem addRoomAt_spec (m : Mapp) (sx sy zx zy : ℕ) (rng : RNG) :
    (((addRoomAt m sx sy zx zy rng).1 = false ∧
        (addRoomAt m sx sy zx zy rng).2.1 = m) ↔
      ¬ m.cornersFull sx sy (sx + zx) (sy + zy)) ∧
    (m.cornersFull sx sy (sx + zx) (sy + zy) →
      (addRoomAt m sx sy zx zy rng).1 = true ∧
      (addRoomAt m sx sy zx zy rng).2.1.rooms =
        m.rooms ++ [Room.mk sx sy zx zy]) := by
  by_cases hc : m.cornersFull sx sy (sx + zx) (sy + zy)
  · have hg : ¬ ((m.getCell sy sx).terrain ≠ Terrain.Full
        ∨ (m.getCell (sy + zy) (sx + zx)).terrain ≠ Terrain.Full
        ∨ (m.getCell sy (sx + zx)).terrain ≠ Terrain.Full
        ∨ (m.getCell (sy + zy) sx).terrain ≠ Terrain.Full) := by
      obtain ⟨h1, h2, h3, h4⟩ := hc
      push_neg
      exact ⟨h1, h2, h3, h4⟩
    rw [addRoomAt_eq, if_neg hg]
    constructor
    · simp [hc]
    · intro _
      refine ⟨rfl, ?_⟩
      show (digInner sx (sx + zx) sy (sy + zy)
        (digTopBottom sx (sx + zx) sy (sy + zy)
          (Mapp.mk m.data (m.rooms ++ [Room.mk sx sy zx zy])))).rooms = _
      rw [digInner_rooms, digTopBottom_rooms]
  · have hg : (m.getCell sy sx).terrain ≠ Terrain.Full
        ∨ (m.getCell (sy + zy) (sx + zx)).terrain ≠ Terrain.Full
        ∨ (m.getCell sy (sx + zx)).terrain ≠ Terrain.Full
        ∨ (m.getCell (sy + zy) sx).terrain ≠ Terrain.Full := by
      by_contra hng
      push_neg at hng
      exact hc ⟨hng.1, hng.2.1, hng.2.2.1, hng.2.2.2⟩
    rw [addRoomAt_eq, if_pos hg]
    constructor
    · simp [hc]
    · intro hcf
      exact absurd hcf hc

/-- Claim C3: room placement is rejection sampling with unchanged state on
rejection.  `Mapp::add_room` returns `false` and leaves both the terrain
grid and the rooms list completely unchanged if and only if at least one of
the four corner cells of the randomly drawn candidate rectangle is not
`Terrain::Full`; otherwise it returns `true` and appends exactly one `Room`
to the rooms list. -/
theorem add_room_rejection (m : Mapp) (rng : RNG) (_hm : m.rect 20 80) :
    (((m.add_room rng).1 = false ∧ (m.add_room rng).2.1 = m) ↔
      ¬ m.cornersFull (drawStartX rng) (drawStartY rng)
        (drawStartX rng + drawSizeX rng) (drawStartY rng + drawSizeY rng)) ∧
    (m.cornersFull (drawStartX rng) (drawStartY rng)
        (drawStartX rng + drawSizeX rng) (drawStartY rng + drawSizeY rng) →
      (m.add_room rng).1 = true ∧
      (m.add_room rng).2.1.rooms = m.rooms ++
        [Room.mk (drawStartX rng) (drawStartY rng) (drawSizeX rng)
          (drawSizeY rng)]) :=
  addRoomAt_spec m (drawStartX rng) (drawStartY rng) (drawSizeX rng)
    (drawSizeY rng) (drawRng rng)

/-- Witness for C3: on the all-Full default map with the all-zeros stream
the corners are empty, so `add_room` succeeds and appends the room
(0,0) of size 4×4. -/
theorem add_room_rejection_witness :
    (Mapp.default.add_room (fun _ => 0)).1 = true ∧
    (Mapp.default.add_room (fun _ => 0)).2.1.rooms =
      Mapp.default.rooms ++ [Room.mk 0 0 4 4] :=
  (add_room_rejection Mapp.default (fun _ => 0) (by decide)).2 (by decide)

/-! ### Claim C8 -/

/-- Loop invariant of `add_rooms`: starting from `fails` accumulated
failures, a terminating run's trace contains exactly
`MAX_ADDROOM_FAILS - fails` further failures, and every proper prefix of
the trace has strictly fewer. -/
theorem add_rooms_aux_count :
    ∀ (fuel : ℕ) (m : Mapp) (rng : RNG) (fails : ℕ) (out : Mapp × List Bool),
      fails ≤ MAX_ADDROOM_FAILS →
      Mapp.add_rooms_aux fuel m rng fails = some out →
      out.2.count false + fails = MAX_ADDROOM_FAILS ∧
      ∀ n, n < out.2.length →
        (out.2.take n).count false + fails < MAX_ADDROOM_FAILS := by
  intro fuel
  induction fuel with
  | zero =>
    intro m rng fails out _ hout
    exact absurd hout (by simp [Mapp.add_rooms_aux])
  | succ fuel ih =>
    intro m rng fails out hle hout
    rw [Mapp.add_rooms_aux] at hout
    split at hout
    · next hlt =>
      rcases har : m.add_room rng with ⟨ret, m', rng'⟩
      rw [har] at hout
      dsimp only at hout
      rcases hrec : Mapp.add_rooms_aux fuel m' rng'
          (if ret then fails else fails + 1) with _ | ⟨mf, trace⟩
      · rw [hrec] at hout; exact absurd hout (by simp)
      · rw [hrec] at hout
        simp only [Option.some.injEq] at hout
        have hle' : (if ret then fails else fails + 1) ≤ MAX_ADDROOM_FAILS := by
          cases ret
          · simpa using hlt
          · simpa using hle
        obtain ⟨hcount, hpref⟩ := ih m' rng' _ _ hle' hrec
        rw [← hout]
        cases ret
        · -- this call failed
          simp only [Bool.false_eq_true, if_false] at hcount hpref
          refine ⟨?_, ?_⟩
          · show List.count false (false :: trace) + fails = MAX_ADDROOM_FAILS
            rw [List.count_cons_self]
            omega
          · intro n hn
            show List.count false (List.take n (false :: trace)) + fails <
              MAX_ADDROOM_FAILS
            cases n with
            | zero =>
              simp only [List.take_zero, List.count_nil]
              omega
            | succ k =>
              rw [List.take_succ_cons, List.count_cons_self]
              have hk := hpref k (by simpa using hn)
              omega
        · -- this call succeeded
          simp only [if_true] at hcount hpref
          refine ⟨?_, ?_⟩
          · show List.count false (true :: trace) + fails = MAX_ADDROOM_FAILS
            rw [List.count_cons_of_ne (by simp)]
            omega
          · intro n hn
            show List.count false (List.take n (true :: trace)) + fails <
              MAX_ADDROOM_FAILS
            cases n with
            | zero =>
              simp only [List.take_zero, List.count_nil]
              omega
            | succ k =>
              rw [List.take_succ_cons, List.count_cons_of_ne (by simp)]
              have hk := hpref k (by simpa using hn)
              omega
    · next hnlt =>
      simp only [Option.some.injEq] at hout
      rw [← hout]
      refine ⟨?_, ?_⟩
      · simp only [List.count_nil]
        omega
      · intro n hn
        simp at hn

/-- Claim C8: every terminating execution of `Mapp::add_rooms` performs
exactly `MAX_ADDROOM_FAILS = 3` failed `add_room` calls, counted
cumulatively over the whole loop (successes may be interleaved anywhere),
and the loop exits as soon as the third failure ever occurs: every proper
prefix of the call trace has fewer than three failures. -/
theorem add_rooms_three_fails (fuel : ℕ) (m : Mapp) (rng : RNG)
    (out : Mapp × List Bool)
    (h : Mapp.add_rooms_aux fuel m rng 0 = some out) :
    out.2.count false = MAX_ADDROOM_FAILS ∧
    ∀ n, n < out.2.length →
      (out.2.take n).count false < MAX_ADDROOM_FAILS := by
  obtain ⟨h1, h2⟩ :=
    add_rooms_aux_count fuel m rng 0 out (Nat.zero_le _) h
  exact ⟨by omega, fun n hn => by have := h2 n hn; omega⟩

/-- Witness for C8: a concrete terminating run whose trace
`[true, false, true, false, false]` has a success interleaved between
failures, exactly three failures in total, and stops at the third. -/
theorem add_rooms_three_fails_witness :
    ∃ out, Mapp.add_rooms_aux 12 Mapp.default rngInterleaved 0 = some out ∧
      out.2 = [true, false, true, false, false] ∧
      out.2.count false = MAX_ADDROOM_FAILS :=
  ⟨_, rfl, rfl,
    (add_rooms_three_fails 12 Mapp.default rngInterleaved _ rfl).1⟩

/-! ### Claim C10 -/

/-- Claim C10: dungeon generation is not deterministic in its random input —
there are two random streams for which `Mapp::default()` followed by
`add_rooms` produces different final grids. -/
theorem add_rooms_depends_on_randomness :
    ∃ (r1 r2 : RNG) (fuel : ℕ),
      (Mapp.add_rooms fuel Mapp.default r1).map Mapp.data ≠
        (Mapp.add_rooms fuel Mapp.default r2).map Mapp.data := by
  refine ⟨fun _ => 0, fun _ => 1, 10, ?_⟩
  decide

/-! ### Claim C2 -/

/-- The point `(d cos θ + tx, d sin θ + ty)` lies at distance `|d|` from
`(tx, ty)`. -/
theorem sqrt_circle (tx ty d θ : ℝ) :
    Real.sqrt ((d * Real.cos θ + tx - tx) ^ 2 +
      (d * Real.sin θ + ty - ty) ^ 2) = |d| := by
  have h : (d * Real.cos θ + tx - tx) ^ 2 + (d * Real.sin θ + ty - ty) ^ 2
      = d ^ 2 := by
    linear_combination d ^ 2 * Real.sin_sq_add_cos_sq θ
  rw [h, Real.sqrt_sq_eq_abs]

/-- Variant of `sqrt_circle` with the translation added on the left. -/
theorem sqrt_circle' (tx ty d θ : ℝ) :
    Real.sqrt ((tx + d * Real.cos θ - tx) ^ 2 +
      (ty + d * Real.sin θ - ty) ^ 2) = |d| := by
  have h : (tx + d * Real.cos θ - tx) ^ 2 + (ty + d * Real.sin θ - ty) ^ 2
      = d ^ 2 := by
    linear_combination d ^ 2 * Real.sin_sq_add_cos_sq θ
  rw [h, Real.sqrt_sq_eq_abs]

theorem dist_orbit_eq_abs (c t : Vec2) (d : ℝ) :
    dist2 (orbit c t d) t = |d| :=
  sqrt_circle t.x t.y d _

theorem dist_ship_orbit_eq_abs (l t : Vec2) (d : ℝ) (cw : Bool) :
    dist2 (ship_orbit_dest l d cw t) t = |d| :=
  sqrt_circle' t.x t.y d _

/-- Claim C2 (amended): the point returned by
`orbit(cur_location, target_location, orbit_distance)` lies at distance
`|orbit_distance|` from `target_location` — equal to `orbit_distance`
exactly when the latter is nonnegative — and likewise the destination
stored by `Ship::orbit` of hovercraft.rs. -/
theorem orbit_point_on_circle (cur_location target_location : Vec2)
    (orbit_distance : ℝ) :
    dist2 (orbit cur_location target_location orbit_distance)
        target_location = |orbit_distance| ∧
    ∀ (location : Vec2) (clockwise : Bool),
      dist2 (ship_orbit_dest location orbit_distance clockwise
          target_location) target_location = |orbit_distance| :=
  ⟨dist_orbit_eq_abs cur_location target_location orbit_distance,
   fun location clockwise =>
     dist_ship_orbit_eq_abs location target_location orbit_distance
       clockwise⟩

/-- Counterexample to C2 as stated: with `orbit_distance = -1` the returned
point lies at distance `1 ≠ -1` from the target. -/
theorem orbit_point_on_circle_cex :
    dist2 (orbit (Vec2.mk 1 0) (Vec2.mk 0 0) (-1)) (Vec2.mk 0 0) = 1 ∧
    (1 : ℝ) ≠ -1 := by
  constructor
  · rw [dist_orbit_eq_abs]
    norm_num
  · norm_num

/-! ### Claim C5 -/

/-- Claim C5: `get_laser_vertices` returns `None` for every input; the
coordinate and vertex vectors it computes never reach the caller. -/
theorem laser_vertices_none (laser_origin laser_dest : Vec2) :
    get_laser_vertices laser_origin laser_dest = none := rfl

/-! ### Claim C6 -/

theorem clamp_abs_le (x c : ℝ) (hc : 0 ≤ c) : |min (max x (-c)) c| ≤ c := by
  rw [abs_le]
  exact ⟨le_min (le_max_right x (-c)) (by linarith), min_le_right _ _⟩

theorem clampv_bounds (v : Vec3) (c : ℝ) (hc : 0 ≤ c) :
    |(v.clampv (splat (-c)) (splat c)).x| ≤ c ∧
    |(v.clampv (splat (-c)) (splat c)).y| ≤ c ∧
    |(v.clampv (splat (-c)) (splat c)).z| ≤ c :=
  ⟨clamp_abs_le _ _ hc, clamp_abs_le _ _ hc, clamp_abs_le _ _ hc⟩

theorem update_vel_if_edge_zero_x (loc vel : Vec3)
    (hx : |loc.x| = (physics_MAP_SIZE : ℝ) / 2) :
    (update_vel_if_edge loc vel).x = 0 := by
  simp only [update_vel_if_edge, Vec3.absv, splat]
  rw [if_pos hx]
  split <;> rfl

theorem update_vel_if_edge_zero_y (loc vel : Vec3)
    (hy : |loc.y| = (physics_MAP_SIZE : ℝ) / 2) :
    (update_vel_if_edge loc vel).y = 0 := by
  simp only [update_vel_if_edge, Vec3.absv, splat]
  rw [if_pos hy]

theorem is_at_map_edge_true (loc : Vec3)
    (h : |loc.x| = (lib_MAP_SIZE : ℝ) / 2 ∨
      |loc.y| = (lib_MAP_SIZE : ℝ) / 2) :
    is_at_map_edge loc = true := by
  simp only [is_at_map_edge, Vec3.absv, splat]
  rw [if_pos h]

/-- Claim C6 (amended): after one `apply_velocity` step every component of
the translation lies within `[-MAP_SIZE/2, MAP_SIZE/2]`; in physics.rs an
x or y coordinate sitting exactly on the edge forces the corresponding
velocity component to zero (the z component is never zeroed); in lib.rs
the whole velocity vector is zeroed when the x or y coordinate sits on the
edge. -/
theorem apply_velocity_keeps_inside (translation vel : Vec3)
    (max_vel dt : ℝ) :
    (|(apply_velocity_step translation vel max_vel dt).1.x| ≤ 500 ∧
     |(apply_velocity_step translation vel max_vel dt).1.y| ≤ 500 ∧
     |(apply_velocity_step translation vel max_vel dt).1.z| ≤ 500) ∧
    ((|(apply_velocity_step translation vel max_vel dt).1.x| = 500 →
      (apply_velocity_step translation vel max_vel dt).2.x = 0) ∧
     (|(apply_velocity_step translation vel max_vel dt).1.y| = 500 →
      (apply_velocity_step translation vel max_vel dt).2.y = 0)) ∧
    (|(lib_apply_velocity_step translation vel dt).1.x| ≤ 200 ∧
     |(lib_apply_velocity_step translation vel dt).1.y| ≤ 200 ∧
     |(lib_apply_velocity_step translation vel dt).1.z| ≤ 200) ∧
    ((|(lib_apply_velocity_step translation vel dt).1.x| = 200 ∨
      |(lib_apply_velocity_step translation vel dt).1.y| = 200) →
      (lib_apply_velocity_step translation vel dt).2 = splat 0) := by
  have h500 : ((physics_MAP_SIZE : ℕ) : ℝ) / 2 = 500 := by
    norm_num [physics_MAP_SIZE]
  have h200 : ((lib_MAP_SIZE : ℕ) : ℝ) / 2 = 200 := by
    norm_num [lib_MAP_SIZE]
  have hp := clampv_bounds
    (translation.add ((apply_velocity_actual vel max_vel).scale dt))
    (((physics_MAP_SIZE : ℕ) : ℝ) / 2) (by norm_num [physics_MAP_SIZE])
  have hl := clampv_bounds
    (translation.add ((apply_velocity_actual vel MAX_VELOCITY).scale dt))
    (((lib_MAP_SIZE : ℕ) : ℝ) / 2) (by norm_num [lib_MAP_SIZE])
  refine ⟨⟨hp.1.trans h500.le, hp.2.1.trans h500.le, hp.2.2.trans h500.le⟩,
    ⟨?_, ?_⟩,
    ⟨hl.1.trans h200.le, hl.2.1.trans h200.le, hl.2.2.trans h200.le⟩, ?_⟩
  · intro hx
    exact update_vel_if_edge_zero_x _ _ (hx.trans h500.symm)
  · intro hy
    exact update_vel_if_edge_zero_y _ _ (hy.trans h500.symm)
  · intro h
    have h' : |(lib_apply_velocity_t1 translation vel dt).x| =
        (lib_MAP_SIZE : ℝ) / 2 ∨
        |(lib_apply_velocity_t1 translation vel dt).y| =
        (lib_MAP_SIZE : ℝ) / 2 := by
      rw [h200]
      exact h
    show (if is_at_map_edge (lib_apply_velocity_t1 translation vel dt)
      then splat 0 else vel) = splat 0
    rw [is_at_map_edge_true _ h']
    simp

/-- Counterexample to C6 as stated: an entity pinned to the z edge of the
map keeps its nonzero z velocity — physics.rs never zeroes the z
component. -/
theorem apply_velocity_keeps_inside_cex :
    |(apply_velocity_step (Vec3.mk 0 0 500) (Vec3.mk 0 0 1) 40 1).1.z| = 500 ∧
    (apply_velocity_step (Vec3.mk 0 0 500) (Vec3.mk 0 0 1) 40 1).2.z ≠ 0 := by
  have hlen : (Vec3.mk 0 0 1).length = 1 := by
    simp [Vec3.length]
  have hav : apply_velocity_actual (Vec3.mk 0 0 1) 40 = Vec3.mk 0 0 1 := by
    unfold apply_velocity_actual
    rw [hlen, if_neg (by norm_num)]
  have ht1 : apply_velocity_t1 (Vec3.mk 0 0 500) (Vec3.mk 0 0 1) 40 1 =
      Vec3.mk 0 0 500 := by
    unfold apply_velocity_t1
    rw [hav]
    simp only [Vec3.add, Vec3.scale, Vec3.clampv, splat]
    norm_num [physics_MAP_SIZE, min_def, max_def]
  constructor
  · show |(apply_velocity_t1 (Vec3.mk 0 0 500) (Vec3.mk 0 0 1) 40 1).z| = 500
    rw [ht1]
    norm_num
  · show (update_vel_if_edge
      (apply_velocity_t1 (Vec3.mk 0 0 500) (Vec3.mk 0 0 1) 40 1)
      (Vec3.mk 0 0 1)).z ≠ 0
    rw [ht1]
    norm_num [update_vel_if_edge, Vec3.absv, splat, physics_MAP_SIZE]

/-- Witness for C6: at a concrete x-edge state the x velocity component is
zeroed (physics.rs) and the whole velocity vector is zeroed (lib.rs). -/
theorem apply_velocity_keeps_inside_witness :
    (apply_velocity_step (Vec3.mk 500 0 0) (Vec3.mk 0 0 0) 40 1).2.x = 0 ∧
    (lib_apply_velocity_step (Vec3.mk 200 0 0) (Vec3.mk 0 0 0) 1).2 =
      splat 0 := by
  have hlen : (Vec3.mk 0 0 0).length = 0 := by
    simp [Vec3.length]
  have hav : ∀ mv : ℝ, 0 < mv →
      apply_velocity_actual (Vec3.mk 0 0 0) mv = Vec3.mk 0 0 0 := by
    intro mv hmv
    unfold apply_velocity_actual
    rw [hlen, if_neg (by linarith)]
  have ht1 : apply_velocity_t1 (Vec3.mk 500 0 0) (Vec3.mk 0 0 0) 40 1 =
      Vec3.mk 500 0 0 := by
    unfold apply_velocity_t1
    rw [hav 40 (by norm_num)]
    simp only [Vec3.add, Vec3.scale, Vec3.clampv, splat]
    norm_num [physics_MAP_SIZE, min_def, max_def]
  have ht2 : lib_apply_velocity_t1 (Vec3.mk 200 0 0) (Vec3.mk 0 0 0) 1 =
      Vec3.mk 200 0 0 := by
    unfold lib_apply_velocity_t1
    rw [show MAX_VELOCITY = 40 from rfl, hav 40 (by norm_num)]
    simp only [Vec3.add, Vec3.scale, Vec3.clampv, splat]
    norm_num [lib_MAP_SIZE, min_def, max_def]
  constructor
  · exact (apply_velocity_keeps_inside (Vec3.mk 500 0 0) (Vec3.mk 0 0 0)
      40 1).2.1.1 (by rw [show (apply_velocity_step (Vec3.mk 500 0 0)
        (Vec3.mk 0 0 0) 40 1).1 = apply_velocity_t1 (Vec3.mk 500 0 0)
        (Vec3.mk 0 0 0) 40 1 from rfl, ht1]; norm_num)
  · exact (apply_velocity_keeps_inside (Vec3.mk 200 0 0) (Vec3.mk 0 0 0)
      40 1).2.2.2 (Or.inl (by rw [show (lib_apply_velocity_step
        (Vec3.mk 200 0 0) (Vec3.mk 0 0 0) 1).1 = lib_apply_velocity_t1
        (Vec3.mk 200 0 0) (Vec3.mk 0 0 0) 1 from rfl, ht2]; norm_num))

/-! ### Claim C4 -/

/-- Claim C4: the orbit destination is recomputed on a fixed 100 ms
interval rather than every frame — `needs_think` returns true iff
`last_think` is `None` or more than 100 ms have elapsed since it, and
`think` stores the current time so that a `needs_think` within 100 ms
returns false. -/
theorem needs_think_100ms :
    (∀ (w : WorldClock) (now : ℤ),
      ((w.needs_think now).1 = true ↔
        (w.last_think = none ∨
          ∃ t, w.last_think = some t ∧ now - t > thinkThresholdNs))) ∧
    (∀ (w : WorldClock) (tthink tnext : ℤ),
      tnext - tthink ≤ thinkThresholdNs →
      ((w.think tthink).needs_think tnext).1 = false) := by
  constructor
  · intro w now
    rcases hw : w.last_think with _ | t
    · simp [WorldClock.needs_think, hw]
    · simp [WorldClock.needs_think, hw]
  · intro w tthink tnext h
    simp [WorldClock.think, WorldClock.needs_think]
    omega

/-- Witness for C4: thinking at time 0 makes a `needs_think` 50 ms later
(within the threshold) return false. -/
theorem needs_think_100ms_witness :
    (((WorldClock.mk none).think 0).needs_think 50000000).1 = false :=
  needs_think_100ms.2 (WorldClock.mk none) 0 50000000 (by decide)

/-! ### Claim C9 -/

theorem move_player_direction_eq (keys : Keys) :
    move_player_direction keys =
      Vec2.mk ((if keys.kd then (1 : ℝ) else 0) - (if keys.ka then 1 else 0))
        ((if keys.kw then (1 : ℝ) else 0) - (if keys.ks then 1 else 0)) := by
  rcases keys with ⟨w', s', d', a'⟩
  cases w' <;> cases s' <;> cases d' <;> cases a' <;>
    simp [move_player_direction]

/-- Claim C9: a single `move_player` callback is a pure delta-write on
position — each player entity's translation gains
`direction * move_speed * delta-time` where `direction` is the sum of the
unit axes of the pressed W/A/S/D keys, its rotation and scale are
untouched, and entities outside the player query are untouched. -/
theorem move_player_delta_write (players others : List Transformm)
    (keys : Keys) (dt : ℝ) :
    (move_player players others keys dt).2 = others ∧
    (move_player players others keys dt).1 =
      players.map (fun t =>
        Transformm.mk
          (Vec3.mk
            (t.translation.x +
              ((if keys.kd then (1 : ℝ) else 0) -
                (if keys.ka then 1 else 0)) * 7 * dt)
            (t.translation.y +
              ((if keys.kw then (1 : ℝ) else 0) -
                (if keys.ks then 1 else 0)) * 7 * dt)
            t.translation.z)
          t.rot t.scale) := by
  refine ⟨rfl, ?_⟩
  simp only [move_player]
  rw [move_player_direction_eq]
  apply List.map_congr_left
  intro t _
  simp [Vec2.scale, Vec3.add]

end Hovercraft
